import Mathlib

/-!
Shallow embedding of the TinyLink URL-shortener backend's redirect-resolution
core, together with the server's error-handling middleware and the analytics
route wiring, translated from the repository sources:
  - the redirect handler (src/routes/redirect.js, shipped inside README.md);
  - src/server.js (error-handling middleware, 404 handler, route mounting);
  - src/routes/analytics.js (route definitions and their middleware chains).
Timestamps are modelled as integers (JS `Date` values compare by their
millisecond time value); the Prisma store is modelled as in-memory lists of
Link and ClickEvent rows.
-/

namespace TinyLink

/-- A Link row, after the Prisma schema described in the repository README:
id, shortCode (unique), originalUrl, optional title/description, clicks,
isActive, optional expiresAt, createdAt/updatedAt. -/
structure Link where
  id : Nat
  shortCode : String
  originalUrl : String
  title : Option String
  description : Option String
  clicks : Nat
  isActive : Bool
  expiresAt : Option Int
  createdAt : Int
  updatedAt : Int
deriving DecidableEq

/-- The per-request metadata the click tracker captures (IP, user agent,
referer), per the ClickEvent model in the README. -/
structure RequestMetadata where
  ipAddress : Option String
  userAgent : Option String
  referer : Option String
deriving DecidableEq

/-- A ClickEvent row after the Analytics model in the README: owning link id,
verbatim request fields, derived device fields, and the click timestamp. -/
structure ClickEvent where
  linkId : Nat
  ipAddress : Option String
  userAgent : Option String
  referer : Option String
  deviceType : Option String
  browser : Option String
  os : Option String
  clickedAt : Int
deriving DecidableEq

/-- The persistent store: the Link relation and the ClickEvent relation. -/
structure Store where
  links : List Link
  clickEvents : List ClickEvent
deriving DecidableEq

/-- `prisma.link.findUnique({ where: { shortCode } })`: lookup of the Link row
with the given short code. -/
def findUnique (σ : Store) (shortCode : String) : Option Link :=
  σ.links.find? (fun l => l.shortCode == shortCode)

/-- An HTTP response body: either plain text (`res.send`) or the JSON shape
`{success, message, stack?}` produced by `res.json` in the error paths. -/
inductive Body where
  | text (s : String)
  | json (success : Bool) (message : String) (stack : Option String)
deriving DecidableEq

/-- An HTTP response as observed by the caller: status code, body, and the
Location header when present. -/
structure HttpResponse where
  status : Nat
  body : Body
  location : Option String
deriving DecidableEq

/-- `res.status(404).send('Not Found')` — the single response value used by
all three failure paths of the redirect handler. -/
def notFoundResponse : HttpResponse :=
  { status := 404, body := Body.text "Not Found", location := none }

/-- `res.redirect(302, url)`: a 302 with Location set to `url` (Express emits
its default small text body alongside the header). -/
def redirectResponse (url : String) : HttpResponse :=
  { status := 302, body := Body.text ("Found. Redirecting to " ++ url), location := some url }

/-- The expiry test of the redirect handler:
`link.expiresAt && new Date(link.expiresAt) < new Date()` — true exactly when
`expiresAt` is set and strictly earlier than the current time. -/
def isExpired (expiresAt : Option Int) (now : Int) : Bool :=
  match expiresAt with
  | none => false
  | some t => t < now

/-- A recorded invocation `trackClick(link.id, req)` scheduled by the redirect
handler (fire-and-forget). -/
structure TrackCall where
  linkId : Nat
  md : RequestMetadata
deriving DecidableEq

/-- The redirect handler from src/routes/redirect.js: look up the Link by
short code; 404 if missing, inactive, or expired; otherwise schedule
`trackClick(link.id, req)` without awaiting it and answer
`res.redirect(302, link.originalUrl)`. Returns the response together with the
list of trackClick invocations it initiated. -/
def redirect (σ : Store) (now : Int) (shortCode : String) (md : RequestMetadata) :
    HttpResponse × List TrackCall :=
  match findUnique σ shortCode with
  | none => (notFoundResponse, [])
  | some link =>
    if !link.isActive then (notFoundResponse, [])
    else if isExpired link.expiresAt now then (notFoundResponse, [])
    else (redirectResponse link.originalUrl, [⟨link.id, md⟩])

/-- Modelled from the spec: the click-tracking middleware `trackClick` lives
in src/middleware/analytics.js, which is not among the provided sources.
Per the spec, it performs a single atomic increment of the owning Link's
`clicks` counter against the store and inserts exactly one ClickEvent built
from the request metadata (device/browser/OS fields are delegated to an
external user-agent parser, modelled here as unset). -/
def trackClick (σ : Store) (linkId : Nat) (md : RequestMetadata) (now : Int) : Store :=
  { links := σ.links.map fun l =>
      if l.id = linkId then { l with clicks := l.clicks + 1 } else l,
    clickEvents :=
      { linkId := linkId, ipAddress := md.ipAddress, userAgent := md.userAgent,
        referer := md.referer, deviceType := none, browser := none, os := none,
        clickedAt := now } :: σ.clickEvents }

/-- Execute the trackClick calls a handler scheduled, in order. -/
def runTasks (σ : Store) (now : Int) : List TrackCall → Store
  | [] => σ
  | t :: ts => runTasks (trackClick σ t.linkId t.md now) now ts

/-- The request-level behaviour of the redirect route: the response is
computed and sent without awaiting the scheduled trackClick promise, whose
rejection is swallowed by `.catch(console.error)` (log-and-drop). A failed
analytics write leaves the store unchanged; a successful one runs the
scheduled calls. Either way the response is the one `redirect` produced. -/
def resolveWithAnalytics (σ : Store) (now : Int) (shortCode : String)
    (md : RequestMetadata) (analyticsOk : Bool) : HttpResponse × Store :=
  let r := redirect σ now shortCode md
  (r.1, if analyticsOk then runTasks σ now r.2 else σ)

/-- A schedule of concurrent resolves on the link with id `i`: since the
spec-modelled trackClick is one atomic store operation and the lookups read
but do not write, any interleaving of N concurrent resolves acts on the store
as some sequence of N atomic trackClick operations. -/
def runSchedule (i : Nat) (now : Int) : Store → List RequestMetadata → Store
  | σ, [] => σ
  | σ, md :: rest => runSchedule i now (trackClick σ i md now) rest

/-- An Express error object as seen by the error middleware of src/server.js:
optional status and message, plus the stack string. -/
structure ErrObject where
  status : Option Nat
  message : Option String
  stack : String
deriving DecidableEq

/-- The error-handling middleware of src/server.js:
`res.status(err.status || 500).json({ success: false, message: err.message ||
'Internal Server Error', ...(process.env.NODE_ENV === 'development' &&
{ stack: err.stack }) })`. -/
def errorMiddleware (nodeEnv : String) (err : ErrObject) : HttpResponse :=
  { status := err.status.getD 500,
    body := Body.json false (err.message.getD "Internal Server Error")
      (if nodeEnv == "development" then some err.stack else none),
    location := none }

/-- The trailing 404 handler of src/server.js:
`res.status(404).json({ success: false, message: 'Route not found' })`. -/
def routeNotFoundResponse : HttpResponse :=
  { status := 404, body := Body.json false "Route not found" none, location := none }

/-- The `{success:false, message}` error shape the spec describes (JSON body
with success set to false). Stated from the spec's words, for comparison with
the bodies the embedded handlers actually produce. -/
def isErrorShape : Body → Bool
  | Body.json false _ _ => true
  | _ => false

/-- The stack detail carried by a body, when any. -/
def bodyStack : Body → Option String
  | Body.json _ _ st => st
  | _ => none

/-- A route declaration: HTTP method, path pattern, ordered middleware chain
(by name) ahead of the controller, and the controller name. -/
structure RouteDecl where
  method : String
  path : String
  middlewares : List String
  controller : String
deriving DecidableEq

/-- The routes declared in src/routes/analytics.js: both GET routes run
`handleValidationErrors` and then `authenticate` before reaching the
analytics controller (both are documented `@access Private` in that file). -/
def analyticsRoutes : List RouteDecl :=
  [ { method := "GET", path := "/summary/:linkId",
      middlewares := ["handleValidationErrors", "authenticate"],
      controller := "analyticsController.getAnalyticsSummary" },
    { method := "GET", path := "/:linkId",
      middlewares := ["handleValidationErrors", "authenticate"],
      controller := "analyticsController.getAnalytics" } ]

/-- The router mounts of src/server.js lines 28-30: an auth router is mounted
at /api/auth, and the analytics router at /api/analytics. -/
def mountedRouters : List (String × String) :=
  [("/api/auth", "authRoutes"), ("/api/links", "linkRoutes"),
   ("/api/analytics", "analyticsRoutes")]

/-- A concrete active link used by the closed witnesses. -/
def linkA : Link :=
  { id := 1, shortCode := "abc123", originalUrl := "https://example.com",
    title := none, description := none, clicks := 0, isActive := true,
    expiresAt := none, createdAt := 0, updatedAt := 0 }

/-- A concrete link whose expiry is set (time 5), for the strict-expiry
witness. -/
def linkB : Link :=
  { linkA with id := 2, shortCode := "exp123", expiresAt := some 5 }

/-- A concrete soft-deleted (inactive) link. -/
def linkC : Link :=
  { linkA with id := 3, shortCode := "inact1", isActive := false }

/-- A concrete store holding just `linkA`. -/
def storeA : Store := { links := [linkA], clickEvents := [] }

/-- A concrete store holding just `linkB`. -/
def storeB : Store := { links := [linkB], clickEvents := [] }

/-- A concrete store holding just `linkC`. -/
def storeC : Store := { links := [linkC], clickEvents := [] }

/-- Empty request metadata for witnesses. -/
def mdA : RequestMetadata := { ipAddress := none, userAgent := none, referer := none }

end TinyLink

namespace TinyLink

lemma redirect_fail_cases (σ : Store) (now : Int) (c : String) (md : RequestMetadata)
    (h : findUnique σ c = none ∨
      ∃ l, findUnique σ c = some l ∧
        (l.isActive = false ∨ ∃ t, l.expiresAt = some t ∧ t < now)) :
    redirect σ now c md = (notFoundResponse, []) := by
  rcases h with h | ⟨l, hl, hcond⟩
  · simp [redirect, h]
  · rcases hcond with hact | ⟨t, ht, hlt⟩
    · simp [redirect, hl, hact]
    · rcases hact : l.isActive with _ | _
      · simp [redirect, hl, hact]
      · simp [redirect, hl, hact, isExpired, ht, hlt]

lemma redirect_success_cases (σ : Store) (now : Int) (c : String) (md : RequestMetadata)
    (l : Link) (hl : findUnique σ c = some l) (hact : l.isActive = true)
    (hexp : isExpired l.expiresAt now = false) :
    redirect σ now c md = (redirectResponse l.originalUrl, [⟨l.id, md⟩]) := by
  simp [redirect, hl, hact, hexp]

lemma notFound_ne_redirectResponse (url : String) :
    notFoundResponse ≠ redirectResponse url := by
  intro h
  have : notFoundResponse.status = (redirectResponse url).status := by rw [h]
  simp [notFoundResponse, redirectResponse] at this

lemma redirect_dichotomy (σ : Store) (now : Int) (c : String) (md : RequestMetadata) :
    redirect σ now c md = (notFoundResponse, []) ∨
      ∃ l, findUnique σ c = some l ∧
        redirect σ now c md = (redirectResponse l.originalUrl, [⟨l.id, md⟩]) := by
  rcases hfind : findUnique σ c with _ | l
  · exact Or.inl (redirect_fail_cases σ now c md (Or.inl hfind))
  · rcases hact : l.isActive with _ | _
    · exact Or.inl (redirect_fail_cases σ now c md (Or.inr ⟨l, hfind, Or.inl hact⟩))
    · rcases hex : l.expiresAt with _ | t
      · exact Or.inr ⟨l, rfl,
          redirect_success_cases σ now c md l hfind hact (by simp [isExpired, hex])⟩
      · by_cases hlt : t < now
        · exact Or.inl (redirect_fail_cases σ now c md (Or.inr ⟨l, hfind, Or.inr ⟨t, hex, hlt⟩⟩))
        · exact Or.inr ⟨l, rfl,
            redirect_success_cases σ now c md l hfind hact (by simp [isExpired, hex]; omega)⟩

/-- C1: `resolve(shortCode)` answers 404 (the NotFound response) exactly when
no Link with that code exists, or the Link's isActive is false, or its
expiresAt is set and strictly in the past; when none of the three conditions
holds, it answers the 302 redirect to the stored originalUrl. -/
theorem resolve_notFound_iff (σ : Store) (now : Int) (c : String) (md : RequestMetadata) :
    ((redirect σ now c md).1 = notFoundResponse ↔
      findUnique σ c = none ∨
      ∃ l, findUnique σ c = some l ∧
        (l.isActive = false ∨ ∃ t, l.expiresAt = some t ∧ t < now)) ∧
    ((redirect σ now c md).1 ≠ notFoundResponse →
      ∃ l, findUnique σ c = some l ∧
        (redirect σ now c md).1 = redirectResponse l.originalUrl ∧
        (redirect σ now c md).1.status = 302) := by
  constructor
  · constructor
    · intro h404
      by_contra hno
      push_neg at hno
      obtain ⟨hsome, hnone⟩ := hno
      rcases hfind : findUnique σ c with _ | l
      · exact hsome hfind
      · have hl := hnone l hfind
        rcases hact : l.isActive with _ | _
        · exact hl.1 hact
        · rcases hex : l.expiresAt with _ | t
          · have := redirect_success_cases σ now c md l hfind hact (by simp [isExpired, hex])
            rw [this] at h404
            exact notFound_ne_redirectResponse l.originalUrl h404.symm
          · by_cases hlt : t < now
            · exact absurd (hl.2 t hex) (by omega)
            · have := redirect_success_cases σ now c md l hfind hact
                (by simp [isExpired, hex]; omega)
              rw [this] at h404
              exact notFound_ne_redirectResponse l.originalUrl h404.symm
    · intro h
      rw [redirect_fail_cases σ now c md h]
  · intro hne
    rcases hfind : findUnique σ c with _ | l
    · exact absurd (by rw [redirect_fail_cases σ now c md (Or.inl hfind)]) hne
    · rcases hact : l.isActive with _ | _
      · exact absurd
          (by rw [redirect_fail_cases σ now c md (Or.inr ⟨l, hfind, Or.inl hact⟩)]) hne
      · rcases hex : l.expiresAt with _ | t
        · have hs := redirect_success_cases σ now c md l hfind hact (by simp [isExpired, hex])
          exact ⟨l, rfl, by rw [hs], by rw [hs]; rfl⟩
        · by_cases hlt : t < now
          · exact absurd
              (by rw [redirect_fail_cases σ now c md (Or.inr ⟨l, hfind, Or.inr ⟨t, hex, hlt⟩⟩)]) hne
          · have hs := redirect_success_cases σ now c md l hfind hact
              (by simp [isExpired, hex]; omega)
            exact ⟨l, rfl, by rw [hs], by rw [hs]; rfl⟩

/-- Witness for C1 at a concrete input: on the one-link store, an unknown code
yields the 404 branch of the iff. -/
theorem resolve_notFound_iff_witness :
    (redirect storeA 0 "zzzzzz" mdA).1 = notFoundResponse :=
  (resolve_notFound_iff storeA 0 "zzzzzz" mdA).1.2 (Or.inl (by decide))

lemma find?_map_bump (f : Link → Link) (p : Link → Bool)
    (hp : ∀ l, p (f l) = p l) :
    ∀ ls : List Link, (ls.map f).find? p = (ls.find? p).map f := by
  intro ls
  induction ls with
  | nil => rfl
  | cons x xs ih =>
    by_cases hx : p x = true
    · simp [List.find?_cons, hp, hx]
    · simp only [Bool.not_eq_true] at hx
      simp [List.find?_cons, hp, hx, ih]

lemma findUnique_trackClick (σ : Store) (i : Nat) (md : RequestMetadata) (now : Int)
    (c : String) :
    findUnique (trackClick σ i md now) c =
      (findUnique σ c).map fun l =>
        if l.id = i then { l with clicks := l.clicks + 1 } else l := by
  unfold findUnique trackClick
  apply find?_map_bump
  intro l
  by_cases h : l.id = i <;> simp [h]

/-- C2: on a successful resolve the response is the 302 redirect whose target
is the stored originalUrl, and executing the scheduled trackClick call leaves
the store with that Link's clicks incremented by exactly 1. -/
theorem resolve_success_increments (σ : Store) (now : Int) (c : String)
    (md : RequestMetadata) (l : Link) (hl : findUnique σ c = some l)
    (hact : l.isActive = true) (hexp : isExpired l.expiresAt now = false) :
    (redirect σ now c md).1 = redirectResponse l.originalUrl ∧
    (redirect σ now c md).1.status = 302 ∧
    (redirect σ now c md).1.location = some l.originalUrl ∧
    findUnique (runTasks σ now (redirect σ now c md).2) c
      = some { l with clicks := l.clicks + 1 } := by
  have hs := redirect_success_cases σ now c md l hl hact hexp
  rw [hs]
  refine ⟨rfl, rfl, rfl, ?_⟩
  show findUnique (runTasks (trackClick σ l.id md now) now []) c = _
  show findUnique (trackClick σ l.id md now) c = _
  rw [findUnique_trackClick, hl]
  simp

/-- Witness for C2: resolving the concrete one-link store's code answers the
302 to its URL and leaves its clicks at 1 once the scheduled call ran. -/
theorem resolve_success_increments_witness :
    (redirect storeA 0 "abc123" mdA).1 = redirectResponse "https://example.com" ∧
    findUnique (runTasks storeA 0 (redirect storeA 0 "abc123" mdA).2) "abc123"
      = some { linkA with clicks := 1 } := by
  have h := resolve_success_increments storeA 0 "abc123" mdA linkA
    (by decide) (by decide) (by decide)
  exact ⟨h.1, h.2.2.2⟩

/-- C9: the expiry comparison is strict: with expiresAt set to t, the link
still redirects whenever now ≤ t (in particular at t = now exactly), and
answers NotFound exactly when t is strictly earlier than now. -/
theorem expiry_comparison_strict (σ : Store) (now : Int) (c : String)
    (md : RequestMetadata) (l : Link) (t : Int) (hl : findUnique σ c = some l)
    (hact : l.isActive = true) (hex : l.expiresAt = some t) :
    (now ≤ t → (redirect σ now c md).1 = redirectResponse l.originalUrl) ∧
    (t < now → (redirect σ now c md).1 = notFoundResponse) := by
  constructor
  · intro hle
    rw [redirect_success_cases σ now c md l hl hact (by simp [isExpired, hex]; omega)]
  · intro hlt
    rw [redirect_fail_cases σ now c md (Or.inr ⟨l, hl, Or.inr ⟨t, hex, hlt⟩⟩)]

/-- Witness for C9: a link expiring exactly at the current instant (t = 5,
now = 5) still redirects. -/
theorem expiry_comparison_strict_witness :
    (redirect storeB 5 "exp123" mdA).1 = redirectResponse "https://example.com" :=
  (expiry_comparison_strict storeB 5 "exp123" mdA linkB 5
    (by decide) (by decide) (by decide)).1 (by decide)

/-- C10: resolve performs no format validation on the short code: for every
string, pattern-conforming or not, it performs the store lookup, never
answers 400 (InvalidInput), and answers the 404 response whenever no Link has
that code. -/
theorem resolve_no_format_validation (σ : Store) (now : Int) (c : String)
    (md : RequestMetadata) :
    (redirect σ now c md).1.status ≠ 400 ∧
    (findUnique σ c = none → (redirect σ now c md).1 = notFoundResponse) := by
  constructor
  · rcases redirect_dichotomy σ now c md with h | ⟨l, _, h⟩ <;> rw [h] <;>
      simp [notFoundResponse, redirectResponse]
  · intro hnone
    rw [redirect_fail_cases σ now c md (Or.inl hnone)]

/-- Witness for C10 at a concrete input: a string far outside the
`[A-Za-z0-9]{6,8}` pattern is looked up and answered with 404, not 400. -/
theorem resolve_no_format_validation_witness :
    (redirect storeA 0 "not a valid code!!" mdA).1 = notFoundResponse ∧
    (redirect storeA 0 "not a valid code!!" mdA).1.status ≠ 400 :=
  ⟨(resolve_no_format_validation storeA 0 "not a valid code!!" mdA).2 (by decide),
   (resolve_no_format_validation storeA 0 "not a valid code!!" mdA).1⟩

/-- C5: the redirect response is the same whether the scheduled analytics
write succeeds or fails: the response is produced without waiting on the
write, and a failed write (swallowed by the catch) never converts a
successful redirect into an error response. -/
theorem analytics_failure_swallowed (σ : Store) (now : Int) (c : String)
    (md : RequestMetadata) :
    (∀ ok₁ ok₂ : Bool,
      (resolveWithAnalytics σ now c md ok₁).1 = (resolveWithAnalytics σ now c md ok₂).1) ∧
    (resolveWithAnalytics σ now c md false).1 = (redirect σ now c md).1 ∧
    (∀ ok : Bool, ∀ l, findUnique σ c = some l → l.isActive = true →
      isExpired l.expiresAt now = false →
      (resolveWithAnalytics σ now c md ok).1 = redirectResponse l.originalUrl ∧
      isErrorShape (resolveWithAnalytics σ now c md ok).1.body = false) := by
  refine ⟨fun _ _ => rfl, rfl, ?_⟩
  intro ok l hl hact hexp
  have hs := redirect_success_cases σ now c md l hl hact hexp
  constructor
  · show (redirect σ now c md).1 = _
    rw [hs]
  · show isErrorShape (redirect σ now c md).1.body = false
    rw [hs]
    rfl

/-- Witness for C5 at a concrete input: with the analytics write failing, the
response is still the 302 redirect. -/
theorem analytics_failure_swallowed_witness :
    (resolveWithAnalytics storeA 0 "abc123" mdA false).1
      = redirectResponse "https://example.com" :=
  ((analytics_failure_swallowed storeA 0 "abc123" mdA).2.2 false linkA
    (by decide) (by decide) (by decide)).1

/-- C6: the three failure conditions (missing code, inactive link, expired
link) are observationally identical: any two failing resolves answer the very
same response, with status 404 and the same body. -/
theorem notFound_indistinguishable
    (σ₁ σ₂ : Store) (now₁ now₂ : Int) (c₁ c₂ : String) (md₁ md₂ : RequestMetadata)
    (h₁ : findUnique σ₁ c₁ = none ∨ ∃ l, findUnique σ₁ c₁ = some l ∧
      (l.isActive = false ∨ ∃ t, l.expiresAt = some t ∧ t < now₁))
    (h₂ : findUnique σ₂ c₂ = none ∨ ∃ l, findUnique σ₂ c₂ = some l ∧
      (l.isActive = false ∨ ∃ t, l.expiresAt = some t ∧ t < now₂)) :
    (redirect σ₁ now₁ c₁ md₁).1 = (redirect σ₂ now₂ c₂ md₂).1 ∧
    (redirect σ₁ now₁ c₁ md₁).1.status = 404 ∧
    (redirect σ₁ now₁ c₁ md₁).1.body = Body.text "Not Found" := by
  rw [redirect_fail_cases σ₁ now₁ c₁ md₁ h₁, redirect_fail_cases σ₂ now₂ c₂ md₂ h₂]
  exact ⟨rfl, rfl, rfl⟩

/-- Witness for C6 at concrete inputs: a missing code and an expired link
produce the same response. -/
theorem notFound_indistinguishable_witness :
    (redirect storeA 0 "zzz999" mdA).1 = (redirect storeB 10 "exp123" mdA).1 ∧
    (redirect storeA 0 "zzz999" mdA).1.status = 404 :=
  ⟨(notFound_indistinguishable storeA storeB 0 10 "zzz999" "exp123" mdA mdA
      (Or.inl (by decide))
      (Or.inr ⟨linkB, by decide, Or.inr ⟨5, by decide, by decide⟩⟩)).1,
   (notFound_indistinguishable storeA storeB 0 10 "zzz999" "exp123" mdA mdA
      (Or.inl (by decide))
      (Or.inr ⟨linkB, by decide, Or.inr ⟨5, by decide, by decide⟩⟩)).2.1⟩

/-- C7: the redirect handler initiates a trackClick (the ClickEvent write)
exactly once per successful resolution — one scheduled call exactly when the
response is the 302 — and never on the NotFound paths. -/
theorem clickEvent_initiated_once (σ : Store) (now : Int) (c : String)
    (md : RequestMetadata) :
    (redirect σ now c md).2.length
      = (if (redirect σ now c md).1.status = 302 then 1 else 0) ∧
    ((redirect σ now c md).1 = notFoundResponse ↔ (redirect σ now c md).2 = []) := by
  rcases redirect_dichotomy σ now c md with h | ⟨l, hl, h⟩ <;> rw [h]
  · exact ⟨rfl, by simp⟩
  · refine ⟨by simp [redirectResponse], ?_, ?_⟩
    · intro hh
      exact absurd hh.symm (notFound_ne_redirectResponse l.originalUrl)
    · intro hh
      simp at hh

lemma findUnique_runSchedule_clicks (i : Nat) (now : Int) (c : String) :
    ∀ (mds : List RequestMetadata) (σ : Store) (l : Link),
      findUnique σ c = some l → l.id = i →
      ∃ l', findUnique (runSchedule i now σ mds) c = some l' ∧
        l'.clicks = l.clicks + mds.length ∧ l'.id = l.id ∧
        l'.originalUrl = l.originalUrl := by
  intro mds
  induction mds with
  | nil =>
    intro σ l hl _
    exact ⟨l, by simpa [runSchedule] using hl, by simp, rfl, rfl⟩
  | cons md rest ih =>
    intro σ l hl hid
    have h1 : findUnique (trackClick σ i md now) c
        = some { l with clicks := l.clicks + 1 } := by
      rw [findUnique_trackClick, hl]
      simp [hid]
    obtain ⟨l', hfind, hclicks, hid', hurl⟩ :=
      ih (trackClick σ i md now) { l with clicks := l.clicks + 1 } h1 hid
    refine ⟨l', hfind, ?_, hid', hurl⟩
    simp only [List.length_cons] at hclicks ⊢
    omega

lemma clickEvents_runSchedule (i : Nat) (now : Int) :
    ∀ (mds : List RequestMetadata) (σ : Store),
      ((runSchedule i now σ mds).clickEvents.countP (fun e => e.linkId == i))
        = σ.clickEvents.countP (fun e => e.linkId == i) + mds.length := by
  intro mds
  induction mds with
  | nil =>
    intro σ
    simp [runSchedule]
  | cons md rest ih =>
    intro σ
    have : runSchedule i now σ (md :: rest)
        = runSchedule i now (trackClick σ i md now) rest := rfl
    rw [this, ih]
    simp [trackClick, List.countP_cons]
    omega

/-- C8: any interleaving of N concurrent resolves on the same existing link —
acting on the store as N spec-modelled atomic trackClick operations, the
lookups being pure reads — raises that link's clicks by exactly N and records
exactly N further ClickEvents carrying that link's id. -/
theorem concurrent_resolves_increment_by_N (σ : Store) (now : Int) (c : String)
    (l : Link) (mds : List RequestMetadata) (hl : findUnique σ c = some l) :
    (∃ l', findUnique (runSchedule l.id now σ mds) c = some l' ∧
      l'.clicks = l.clicks + mds.length ∧ l'.id = l.id ∧
      l'.originalUrl = l.originalUrl) ∧
    (runSchedule l.id now σ mds).clickEvents.countP (fun e => e.linkId == l.id)
      = σ.clickEvents.countP (fun e => e.linkId == l.id) + mds.length :=
  ⟨findUnique_runSchedule_clicks l.id now c mds σ l hl rfl,
   clickEvents_runSchedule l.id now mds σ⟩

/-- Witness for C8 at a concrete input: three concurrent resolves on the
one-link store leave its clicks at 3 and record 3 ClickEvents for it. -/
theorem concurrent_resolves_increment_by_N_witness :
    (∃ l', findUnique (runSchedule 1 0 storeA [mdA, mdA, mdA]) "abc123" = some l' ∧
      l'.clicks = 3) ∧
    (runSchedule 1 0 storeA [mdA, mdA, mdA]).clickEvents.countP
      (fun e => e.linkId == 1) = 3 := by
  obtain ⟨⟨l', h1, h2, _, _⟩, h3⟩ :=
    concurrent_resolves_increment_by_N storeA 0 "abc123" linkA [mdA, mdA, mdA]
      (by decide)
  refine ⟨⟨l', h1, ?_⟩, ?_⟩
  · rw [h2]
    decide
  · have h3' : List.countP (fun e => e.linkId == 1)
        (runSchedule 1 0 storeA [mdA, mdA, mdA]).clickEvents
        = List.countP (fun e => e.linkId == 1) storeA.clickEvents
          + [mdA, mdA, mdA].length := h3
    rw [h3']
    decide

/-- C4 counterexample: a resolve on an unknown code answers 404 with the
plain-text body 'Not Found', which is not the {success:false, message} JSON
shape — so not every user-visible error response carries that shape. -/
theorem resolve404_body_not_error_shape :
    (redirect storeA 0 "zzz111" mdA).1.status = 404 ∧
    isErrorShape (redirect storeA 0 "zzz111" mdA).1.body = false := by
  decide

/-- C4 (amended): every error response produced by the server's
error-handling middleware and by its trailing route-404 handler carries the
{success:false, message} shape, with stack detail present exactly in
development mode; the redirect handler's own 404 responses instead carry the
fixed plain-text body 'Not Found'. -/
theorem error_responses_shape (nodeEnv : String) (err : ErrObject)
    (σ : Store) (now : Int) (c : String) (md : RequestMetadata) :
    isErrorShape (errorMiddleware nodeEnv err).body = true ∧
    (bodyStack (errorMiddleware nodeEnv err).body).isSome = (nodeEnv == "development") ∧
    isErrorShape routeNotFoundResponse.body = true ∧
    ((redirect σ now c md).1.status = 404 →
      (redirect σ now c md).1.body = Body.text "Not Found") := by
  refine ⟨rfl, ?_, rfl, ?_⟩
  · cases h : nodeEnv == "development" <;> simp [errorMiddleware, bodyStack, h]
  · intro h404
    rcases redirect_dichotomy σ now c md with h | ⟨l, _, h⟩
    · rw [h]
      rfl
    · rw [h] at h404
      simp [redirectResponse] at h404

/-- Witness for C4's amended statement: in production mode the middleware
body is shaped and stack-free, and a concrete resolve 404 carries the
plain-text body. -/
theorem error_responses_shape_witness :
    (redirect storeA 0 "zzz222" mdA).1.body = Body.text "Not Found" ∧
    isErrorShape (errorMiddleware "production" ⟨none, none, "trace"⟩).body = true :=
  ⟨(error_responses_shape "production" ⟨none, none, "trace"⟩ storeA 0 "zzz222" mdA).2.2.2
      (by decide),
   (error_responses_shape "production" ⟨none, none, "trace"⟩ storeA 0 "zzz222" mdA).1⟩

/-- C3: contrary to the claim (and the README's "all endpoints public, no
authentication middleware"), both /api/analytics routes run an
`authenticate` middleware ahead of their controller, and the server mounts
an /api/auth router — so handling of these requests is not independent of
credentials. -/
theorem analytics_routes_use_authentication :
    (analyticsRoutes.all fun r => r.middlewares.contains "authenticate") = true ∧
    mountedRouters.contains ("/api/auth", "authRoutes") = true := by
  decide

end TinyLink
